import Mathlib

/-!
Verification of the `fingerfly` modal text editor (src/main.cpp).

The editor state is embedded shallowly: lines are byte sequences
(`List Nat` of ASCII codes), the buffer is a list of lines, and the
input-handling member functions of class `Editor` become pure state
transformers.  Input events are the `int` codes returned by `getch`
(ncurses key codes: KEY_DOWN = 258, KEY_UP = 259, KEY_LEFT = 260,
KEY_RIGHT = 261, KEY_BACKSPACE = 263).
-/

namespace Fingerfly

/-- ncurses KEY_UP code (octal 0403). -/
def KEY_UP : Nat := 259
/-- ncurses KEY_DOWN code (octal 0402). -/
def KEY_DOWN : Nat := 258
/-- ncurses KEY_LEFT code (octal 0404). -/
def KEY_LEFT : Nat := 260
/-- ncurses KEY_RIGHT code (octal 0405). -/
def KEY_RIGHT : Nat := 261
/-- ncurses KEY_BACKSPACE code (octal 0407). -/
def KEY_BACKSPACE : Nat := 263

/-- A text line: byte values of an ASCII `std::string` (no terminator stored). -/
abbrev Line := List Nat

/-- The editor mode enum of `main.cpp` (`enum Mode { NORMAL, INSERT }`). -/
inductive Mode where
  | NORMAL : Mode
  | INSERT : Mode
deriving DecidableEq, Repr

/-- The mutable fields of class `Editor` that the editing core touches:
`content`, `copy_buffer`, the cursor, the scroll offsets and `mode`.
Cursor coordinates are `Nat`: in the C++ they are `int`s that start at 0,
every decrement is guarded by a positivity test, so they never go negative. -/
structure EditorState where
  content : List Line
  copy_buffer : Line
  cursor_x : Nat
  cursor_y : Nat
  offset_x : Int
  offset_y : Int
  mode : Mode
deriving DecidableEq, Repr

/-- Model of `std::vector::insert(begin() + n, a)`: inserts `a` before position `n`.
When `n` exceeds the length (undefined behaviour in C++) this model leaves
the list unchanged. -/
def insertAt : Nat → α → List α → List α
  | 0, a, l => a :: l
  | _ + 1, _, [] => []
  | n + 1, a, b :: l => b :: insertAt n a l

/-- The value of the C++ expression `content.size() - 1`: `size()` is a
`size_t`, so the subtraction wraps modulo `2 ^ 64` when the vector is empty. -/
def sizeSub1 (n : Nat) : Nat := (n + (2 ^ 64 - 1)) % 2 ^ 64

/-- Embedding of `Editor::handleNormalMode` (main.cpp lines 72 to 111), one `switch` case
per key; the `default` of the `switch` leaves the state unchanged. -/
def handleNormalMode (s : EditorState) (ch : Nat) : EditorState :=
  if ch = KEY_UP then
    if s.cursor_y > 0 then { s with cursor_y := s.cursor_y - 1 } else s
  else if ch = KEY_DOWN then
    if s.cursor_y < sizeSub1 s.content.length then
      { s with cursor_y := s.cursor_y + 1 } else s
  else if ch = KEY_LEFT then
    if s.cursor_x > 0 then { s with cursor_x := s.cursor_x - 1 } else s
  else if ch = KEY_RIGHT then
    if s.cursor_x < (s.content.getD s.cursor_y []).length then
      { s with cursor_x := s.cursor_x + 1 } else s
  else if ch = 105 then -- the letter i: switch to insert mode
    { s with mode := Mode.INSERT }
  else if ch = 100 then -- the letter d: delete current line
    if s.content.length > 1 then
      let c := s.content.eraseIdx s.cursor_y
      { s with content := c,
               cursor_y := if s.cursor_y ≥ c.length then s.cursor_y - 1 else s.cursor_y,
               cursor_x := 0 }
    else
      { s with content := s.content.set 0 [], cursor_x := 0 }
  else if ch = 121 then -- the letter y: copy current line
    { s with copy_buffer := s.content.getD s.cursor_y [] }
  else if ch = 112 then -- the letter p: paste copied line below current
    { s with content := insertAt (s.cursor_y + 1) s.copy_buffer s.content,
             cursor_y := s.cursor_y + 1 }
  else if ch = 111 then -- the letter o: insert a new empty line below current
    { s with content := insertAt (s.cursor_y + 1) [] s.content,
             cursor_y := s.cursor_y + 1,
             cursor_x := 0 }
  else s

/-- Embedding of `Editor::handleInsertMode` (main.cpp lines 113 to 138).
`string::erase(p, 1)`, `substr(p)` and `insert(p, 1, ch)` are rendered with
`take`/`drop`, which agree with C++ on all in-bounds positions. -/
def handleInsertMode (s : EditorState) (ch : Nat) : EditorState :=
  if ch = 27 then -- ESC key to exit insert mode
    { s with mode := Mode.NORMAL }
  else if ch = KEY_BACKSPACE ∨ ch = 127 then
    if s.cursor_x > 0 then
      let line := s.content.getD s.cursor_y []
      { s with content := s.content.set s.cursor_y
                 (line.take (s.cursor_x - 1) ++ line.drop s.cursor_x),
               cursor_x := s.cursor_x - 1 }
    else s
  else if ch = 10 then -- Enter key to insert a new line
    let line := s.content.getD s.cursor_y []
    { s with content := (insertAt (s.cursor_y + 1) (line.drop s.cursor_x)
                           s.content).set s.cursor_y (line.take s.cursor_x),
             cursor_y := s.cursor_y + 1,
             cursor_x := 0 }
  else if 32 ≤ ch ∧ ch ≤ 126 then -- printable characters
    let line := s.content.getD s.cursor_y []
    { s with content := s.content.set s.cursor_y
               (line.take s.cursor_x ++ ch :: line.drop s.cursor_x),
             cursor_x := s.cursor_x + 1 }
  else s

/-- The scrolling logic of `Editor::draw` for one axis (main.cpp
lines 147 to 157), applied to rows with `max_y` and to columns with `max_x`. -/
def recomputeOffset (offset cursor mx : Int) : Int :=
  if cursor < offset then cursor
  else if cursor ≥ offset + mx - 1 then cursor - mx + 1
  else offset

/-- The state effect of `Editor::draw` (main.cpp lines 140 to 172): the only
fields it writes are the two scroll offsets; everything else is rendering. -/
def draw (s : EditorState) (max_y max_x : Int) : EditorState :=
  { s with offset_y := recomputeOffset s.offset_y s.cursor_y max_y,
           offset_x := recomputeOffset s.offset_x s.cursor_x max_x }

/-- One iteration of the input loop body after the quit test: dispatch on the
current mode (main.cpp lines 25 to 32). -/
def step (s : EditorState) (ch : Nat) : EditorState :=
  match s.mode with
  | Mode.NORMAL => handleNormalMode s ch
  | Mode.INSERT => handleInsertMode s ch

/-- The input loop of `Editor::run` (main.cpp lines 22 to 36) over a finite
input sequence: `while ((ch = getch()) != 'q')` tests for the letter q
(code 113) before dispatching on the mode, so a q input stops the loop in
either mode and is never passed to a handler.  `draw` is not threaded here:
it writes only the scroll offsets, never `content`, the cursor,
`copy_buffer` or `mode`. -/
def runInputs (s : EditorState) : List Nat → EditorState
  | [] => s
  | ch :: rest => if ch = 113 then s else runInputs (step s ch) rest

/-- The lines produced by the `while (getline(file, line))` loop of
`Editor::loadFile` on a byte sequence, with accumulator `acc` holding the
bytes of the line being read.  `getline` consumes up to a newline (byte 10)
or the end of input, and fails (ending the loop) exactly when no byte is
left to read. -/
def readLinesAux : List Nat → Line → List Line
  | [], acc => if acc.isEmpty then [] else [acc]
  | c :: rest, acc =>
      if c = 10 then acc :: readLinesAux rest []
      else readLinesAux rest (acc ++ [c])

/-- All lines `getline` yields on a byte sequence. -/
def readLines (bytes : List Nat) : List Line := readLinesAux bytes []

/-- Embedding of `Editor::loadFile` (main.cpp lines 48 to 60) as a function from the open
result to the resulting `content` (which is empty before the call, since
`loadFile` runs once, from the constructor).  `none` models a file that
cannot be opened: the whole body is skipped and `content` stays empty; the
guard `if (content.empty()) content.push_back("")` runs only when the file
was opened. -/
def loadFile : Option (List Nat) → List Line
  | none => []
  | some bytes =>
      let ls := readLines bytes
      if ls.isEmpty then [[]] else ls

/-- The bytes `Editor::saveFile` (main.cpp lines 62 to 70) writes when the
file opens: each line of `content` followed by a newline, in order. -/
def saveBytes : List Line → List Nat
  | [] => []
  | l :: rest => l ++ 10 :: saveBytes rest

/-! ### Helper lemmas about the embedded operations -/

theorem insertAt_eq_take_append {α} (a : α) :
    ∀ (n : Nat) (l : List α), n ≤ l.length →
      insertAt n a l = l.take n ++ a :: l.drop n
  | 0, l, _ => by simp [insertAt]
  | n + 1, [], h => by simp at h
  | n + 1, b :: l, h => by
      simpa [insertAt] using insertAt_eq_take_append a n l (by simpa using h)

theorem length_le_length_insertAt {α} (a : α) :
    ∀ (n : Nat) (l : List α), l.length ≤ (insertAt n a l).length
  | 0, l => by simp [insertAt]
  | _ + 1, [] => by simp [insertAt]
  | n + 1, b :: l => by
      simpa [insertAt] using length_le_length_insertAt a n l

theorem length_insertAt {α} (a : α) {n : Nat} {l : List α} (h : n ≤ l.length) :
    (insertAt n a l).length = l.length + 1 := by
  rw [insertAt_eq_take_append a n l h]
  simp
  omega

theorem mem_of_mem_insertAt {α} {x a : α} :
    ∀ {n : Nat} {l : List α}, x ∈ insertAt n a l → x = a ∨ x ∈ l
  | 0, l, h => by simpa [insertAt] using h
  | _ + 1, [], h => by simp [insertAt] at h
  | n + 1, b :: l, h => by
      simp only [insertAt, List.mem_cons] at h
      rcases h with rfl | h
      · exact Or.inr (List.mem_cons_self _ _)
      · rcases mem_of_mem_insertAt h with h | h
        · exact Or.inl h
        · exact Or.inr (List.mem_cons_of_mem _ h)

theorem getD_insertAt_self {α} (a d : α) :
    ∀ {n : Nat} {l : List α}, n ≤ l.length → (insertAt n a l).getD n d = a
  | 0, l, _ => by simp [insertAt]
  | n + 1, [], h => by simp at h
  | n + 1, b :: l, h => by
      simpa [insertAt, List.getD] using getD_insertAt_self a d (by simpa using h)

theorem getD_insertAt_of_lt {α} (a d : α) :
    ∀ {n i : Nat} {l : List α}, i < n → (insertAt n a l).getD i d = l.getD i d
  | n + 1, i, [], _ => by simp [insertAt]
  | n + 1, 0, b :: l, _ => by simp [insertAt, List.getD]
  | n + 1, i + 1, b :: l, h => by
      simpa [insertAt, List.getD] using getD_insertAt_of_lt a d (by omega)

theorem getD_insertAt_of_ge {α} (a d : α) :
    ∀ {n i : Nat} {l : List α}, n ≤ i → n ≤ l.length →
      (insertAt n a l).getD (i + 1) d = l.getD i d
  | 0, i, l, _, _ => by simp [insertAt, List.getD]
  | n + 1, i, [], _, hn => by simp at hn
  | n + 1, i, b :: l, h, hn => by
      obtain ⟨j, rfl⟩ : ∃ j, i = j + 1 := ⟨i - 1, by omega⟩
      simpa [insertAt, List.getD] using
        getD_insertAt_of_ge a d (by omega) (by simpa using hn)

theorem set_getD_self {α} {l : List α} {n : Nat} {d : α} (h : n < l.length) :
    l.set n (l.getD n d) = l := by
  apply List.ext_getElem?
  intro i
  rcases eq_or_ne n i with rfl | hne
  · simp [List.getElem?_set_self h, List.getD_eq_getElem?_getD,
      List.getElem?_eq_getElem h]
  · simp [List.getElem?_set_ne hne]

theorem take_append_drop_insert_restore {α} (c : α) :
    ∀ (n : Nat) (l : List α), n ≤ l.length →
      (l.take n ++ c :: l.drop n).take n ++ (l.take n ++ c :: l.drop n).drop (n + 1) = l
  | 0, l, _ => by simp
  | n + 1, [], h => by simp at h
  | n + 1, a :: l, h => by
      simpa using take_append_drop_insert_restore c n l (by simpa using h)

theorem sizeSub1_eq {n : Nat} (h1 : 1 ≤ n) (h2 : n < 2 ^ 64) :
    sizeSub1 n = n - 1 := by
  unfold sizeSub1
  omega

/-! ### C1: load on a missing or empty file -/

/-- C1 (refuted, code bug): the claim says `load` yields a one-line empty
buffer whenever the file cannot be opened, but `Editor::loadFile` places the
`content.push_back("")` guard inside the `if (file.is_open())` branch: an
unopenable file leaves `content` with zero lines, while an openable file of
zero lines does get the single empty line. -/
theorem loadFile_missing_leaves_zero_lines :
    loadFile none = [] ∧ (loadFile none).length = 0 ∧ loadFile (some []) = [[]] :=
  ⟨rfl, rfl, rfl⟩

/-! ### C3: viewport invariant after draw -/

/-- C3 counterexample: with terminal size `max_y = 2`, `max_x = 3`, cursor at
row 1 column 0 and both offsets 0, the recompute of `draw` keeps
`offset_y = 0`, and the claimed bound `cursorRow ≤ rowOffset + visibleRows - 2`
fails (`1 ≤ 0` is false). -/
theorem viewport_claimed_bound_fails :
    ¬ ((draw ⟨[[]], [], 0, 1, 0, 0, Mode.NORMAL⟩ 2 3).offset_y ≤ 1 ∧
       (1 : Int) ≤ (draw ⟨[[]], [], 0, 1, 0, 0, Mode.NORMAL⟩ 2 3).offset_y + 2 - 2 ∧
       (draw ⟨[[]], [], 0, 1, 0, 0, Mode.NORMAL⟩ 2 3).offset_x ≤ 0 ∧
       (0 : Int) ≤ (draw ⟨[[]], [], 0, 1, 0, 0, Mode.NORMAL⟩ 2 3).offset_x + 3 - 2) := by
  decide

/-- C3 (amended): after the viewport recompute of `draw` with positive
terminal dimensions, `rowOffset ≤ cursorRow ≤ rowOffset + visibleRows - 1`
and `colOffset ≤ cursorCol ≤ colOffset + visibleCols - 1`; the upper bounds
with `- 2` claimed by the spec do not hold in the scroll-forward branch. -/
theorem viewport_invariant_after_draw (s : EditorState) (max_y max_x : Int)
    (hy : 1 ≤ max_y) (hx : 1 ≤ max_x) :
    (draw s max_y max_x).offset_y ≤ s.cursor_y ∧
    (s.cursor_y : Int) ≤ (draw s max_y max_x).offset_y + max_y - 1 ∧
    (draw s max_y max_x).offset_x ≤ s.cursor_x ∧
    (s.cursor_x : Int) ≤ (draw s max_y max_x).offset_x + max_x - 1 := by
  simp only [draw, recomputeOffset]
  split_ifs <;> refine ⟨?_, ?_, ?_, ?_⟩ <;> omega

/-- Witness for `viewport_invariant_after_draw` at a concrete state and
terminal size. -/
theorem viewport_invariant_after_draw_witness :
    (draw ⟨[[]], [], 5, 7, 2, 1, Mode.NORMAL⟩ 4 6).offset_y ≤ 7 ∧
    (7 : Int) ≤ (draw ⟨[[]], [], 5, 7, 2, 1, Mode.NORMAL⟩ 4 6).offset_y + 4 - 1 ∧
    (draw ⟨[[]], [], 5, 7, 2, 1, Mode.NORMAL⟩ 4 6).offset_x ≤ 5 ∧
    (5 : Int) ≤ (draw ⟨[[]], [], 5, 7, 2, 1, Mode.NORMAL⟩ 4 6).offset_x + 6 - 1 :=
  viewport_invariant_after_draw ⟨[[]], [], 5, 7, 2, 1, Mode.NORMAL⟩ 4 6
    (by decide) (by decide)

/-! ### C10: normal mode ignores unbound keys -/

/-- C10: in Normal mode, an input that is none of the four arrow keys and
none of the letters i, d, y, p, o falls through the `switch` default and
leaves the whole editor state (buffer, cursor, clipboard, mode) unchanged. -/
theorem normal_mode_unbound_key_no_effect (s : EditorState) (ch : Nat)
    (hmode : s.mode = Mode.NORMAL)
    (h1 : ch ≠ KEY_UP) (h2 : ch ≠ KEY_DOWN) (h3 : ch ≠ KEY_LEFT)
    (h4 : ch ≠ KEY_RIGHT) (h5 : ch ≠ 105) (h6 : ch ≠ 100) (h7 : ch ≠ 121)
    (h8 : ch ≠ 112) (h9 : ch ≠ 111) :
    step s ch = s := by
  unfold step
  rw [hmode]
  simp [handleNormalMode, h1, h2, h3, h4, h5, h6, h7, h8, h9]

/-- Witness for `normal_mode_unbound_key_no_effect`: the letter x (code 120)
in Normal mode changes nothing. -/
theorem normal_mode_unbound_key_no_effect_witness :
    step ⟨[[104, 105]], [107], 1, 0, 0, 0, Mode.NORMAL⟩ 120
      = ⟨[[104, 105]], [107], 1, 0, 0, 0, Mode.NORMAL⟩ :=
  normal_mode_unbound_key_no_effect _ 120 rfl (by decide) (by decide) (by decide)
    (by decide) (by decide) (by decide) (by decide) (by decide) (by decide)

/-! ### C2: the buffer never drops below one line -/

theorem one_le_length_handleNormalMode {s : EditorState}
    (h : 1 ≤ s.content.length) (ch : Nat) :
    1 ≤ (handleNormalMode s ch).content.length := by
  unfold handleNormalMode
  split_ifs <;> (try dsimp only) <;>
    first
      | exact h
      | (simp only [List.length_set]; exact h)
      | (simp only [List.length_eraseIdx]; split_ifs <;> omega)
      | exact le_trans h (length_le_length_insertAt _ _ _)

theorem one_le_length_handleInsertMode {s : EditorState}
    (h : 1 ≤ s.content.length) (ch : Nat) :
    1 ≤ (handleInsertMode s ch).content.length := by
  unfold handleInsertMode
  split_ifs <;> (try dsimp only) <;>
    first
      | exact h
      | (simp only [List.length_set]; exact h)
      | (simp only [List.length_set];
         exact le_trans h (length_le_length_insertAt _ _ _))

theorem one_le_length_step {s : EditorState}
    (h : 1 ≤ s.content.length) (ch : Nat) :
    1 ≤ (step s ch).content.length := by
  unfold step
  cases s.mode
  · exact one_le_length_handleNormalMode h ch
  · exact one_le_length_handleInsertMode h ch

theorem one_le_length_foldl_step :
    ∀ (ks : List Nat) (s : EditorState), 1 ≤ s.content.length →
      1 ≤ (List.foldl step s ks).content.length
  | [], _, h => h
  | ch :: ks, s, h =>
      one_le_length_foldl_step ks (step s ch) (one_le_length_step h ch)

/-- C2: starting from a buffer of at least one line, any input sequence —
in particular any sequence of delete-line commands, with arbitrary cursor
moves in between — keeps the buffer at a length of at least one; the d key
removes `Line[cursor_y]` when more than one line exists, and with exactly
one line it instead clears that line to empty. -/
theorem deleteLine_keeps_buffer_nonempty (s : EditorState)
    (h : 1 ≤ s.content.length) :
    (∀ ks : List Nat, 1 ≤ (List.foldl step s ks).content.length) ∧
    (1 < s.content.length →
      (handleNormalMode s 100).content = s.content.eraseIdx s.cursor_y) ∧
    (s.content.length = 1 → (handleNormalMode s 100).content = [[]]) := by
  have e : handleNormalMode s 100 =
      if s.content.length > 1 then
        let c := s.content.eraseIdx s.cursor_y
        { s with content := c,
                 cursor_y := if s.cursor_y ≥ c.length then s.cursor_y - 1
                             else s.cursor_y,
                 cursor_x := 0 }
      else { s with content := s.content.set 0 [], cursor_x := 0 } := rfl
  refine ⟨fun ks => one_le_length_foldl_step ks s h, fun h1 => ?_, fun h1 => ?_⟩
  · rw [e, if_pos h1]
  · rw [e, if_neg (by omega)]
    obtain ⟨x, hx⟩ := List.length_eq_one.mp h1
    rw [hx]
    rfl

/-- Witness for `deleteLine_keeps_buffer_nonempty`: three d presses on a
one-line buffer, and the single-line clearing case. -/
theorem deleteLine_keeps_buffer_nonempty_witness :
    1 ≤ (List.foldl step ⟨[[97]], [], 0, 0, 0, 0, Mode.NORMAL⟩
          [100, 100, 100]).content.length ∧
    (handleNormalMode ⟨[[97]], [], 0, 0, 0, 0, Mode.NORMAL⟩ 100).content = [[]] :=
  ⟨(deleteLine_keeps_buffer_nonempty _ (by decide)).1 [100, 100, 100],
   (deleteLine_keeps_buffer_nonempty _ (by decide)).2.2 (by decide)⟩

/-! ### C9: vertical movement clamps the row and never touches the column -/

/-- C9: up and down clamp `cursor_y` to `[0, content.length - 1]` and leave
`cursor_x` and the buffer unchanged; the column is not re-clamped against the
new row, so it can end up beyond that row's length, as the concrete
two-line instance at the end shows. -/
theorem vertical_move_clamps_row_not_col (s : EditorState)
    (hlen : 1 ≤ s.content.length) (hbig : s.content.length < 2 ^ 64)
    (hy : s.cursor_y < s.content.length) :
    ((handleNormalMode s KEY_DOWN).cursor_y =
       if s.cursor_y < s.content.length - 1 then s.cursor_y + 1
       else s.cursor_y) ∧
    (handleNormalMode s KEY_DOWN).cursor_y < s.content.length ∧
    (handleNormalMode s KEY_DOWN).cursor_x = s.cursor_x ∧
    (handleNormalMode s KEY_DOWN).content = s.content ∧
    ((handleNormalMode s KEY_UP).cursor_y =
       if 0 < s.cursor_y then s.cursor_y - 1 else s.cursor_y) ∧
    (handleNormalMode s KEY_UP).cursor_y < s.content.length ∧
    (handleNormalMode s KEY_UP).cursor_x = s.cursor_x ∧
    (handleNormalMode s KEY_UP).content = s.content ∧
    (handleNormalMode ⟨[[97, 98], []], [], 2, 0, 0, 0, Mode.NORMAL⟩
        KEY_DOWN).cursor_y = 1 ∧
    ((handleNormalMode ⟨[[97, 98], []], [], 2, 0, 0, 0, Mode.NORMAL⟩
        KEY_DOWN).content.getD 1 []).length
      < (handleNormalMode ⟨[[97, 98], []], [], 2, 0, 0, 0, Mode.NORMAL⟩
        KEY_DOWN).cursor_x := by
  have ed : handleNormalMode s KEY_DOWN =
      if s.cursor_y < sizeSub1 s.content.length then
        { s with cursor_y := s.cursor_y + 1 } else s := by
    simp [handleNormalMode, KEY_UP, KEY_DOWN]
  have eu : handleNormalMode s KEY_UP =
      if s.cursor_y > 0 then { s with cursor_y := s.cursor_y - 1 } else s := by
    simp [handleNormalMode, KEY_UP]
  rw [ed, eu, sizeSub1_eq hlen hbig]
  refine ⟨?_, ?_, ?_, ?_, ?_, ?_, ?_, ?_, ?_, ?_⟩ <;>
    first
      | decide
      | (split_ifs <;> (try simp) <;> omega)

/-- Witness for `vertical_move_clamps_row_not_col` on a two-line buffer. -/
theorem vertical_move_clamps_row_not_col_witness :
    (handleNormalMode ⟨[[97], [98, 99]], [], 0, 0, 0, 0, Mode.NORMAL⟩
        KEY_DOWN).cursor_y < 2 ∧
    (handleNormalMode ⟨[[97], [98, 99]], [], 0, 0, 0, 0, Mode.NORMAL⟩
        KEY_DOWN).cursor_x = 0 :=
  ⟨(vertical_move_clamps_row_not_col _ (by decide) (by norm_num)
      (by decide)).2.1,
   (vertical_move_clamps_row_not_col _ (by decide) (by norm_num)
      (by decide)).2.2.1⟩

/-! ### C4: quit is intercepted before mode dispatch -/

/-- The byte `b` occurs neither in the buffer nor in the clipboard. -/
def NoByte (b : Nat) (s : EditorState) : Prop :=
  (∀ l ∈ s.content, b ∉ l) ∧ b ∉ s.copy_buffer

theorem not_mem_getD_of_forall {c : List Line} {b : Nat}
    (hc : ∀ l ∈ c, b ∉ l) (n : Nat) : b ∉ c.getD n [] := by
  by_cases hn : n < c.length
  · rw [List.getD_eq_getElem?_getD, List.getElem?_eq_getElem hn, Option.getD_some]
    exact hc _ (List.getElem_mem hn)
  · rw [List.getD_eq_getElem?_getD, List.getElem?_eq_none (by omega),
      Option.getD_none]
    exact List.not_mem_nil b

theorem noByte_handleNormalMode {b : Nat} {s : EditorState} (ch : Nat)
    (h : NoByte b s) : NoByte b (handleNormalMode s ch) := by
  obtain ⟨hc, hb⟩ := h
  unfold handleNormalMode
  split_ifs <;> (try dsimp only) <;> refine ⟨?_, ?_⟩ <;>
    first
      | exact hc
      | exact hb
      | exact not_mem_getD_of_forall hc _
      | (intro l hl
         rw [List.eraseIdx_eq_take_drop_succ] at hl
         rcases List.mem_append.mp hl with hm | hm
         · exact hc l (List.mem_of_mem_take hm)
         · exact hc l (List.mem_of_mem_drop hm))
      | (intro l hl
         rcases List.mem_or_eq_of_mem_set hl with hm | rfl
         · exact hc l hm
         · exact List.not_mem_nil b)
      | (intro l hl
         rcases mem_of_mem_insertAt hl with rfl | hm
         · first
             | exact hb
             | exact List.not_mem_nil b
         · exact hc l hm)

theorem noByte_handleInsertMode {b : Nat} {s : EditorState} (ch : Nat)
    (hch : ch ≠ b) (h : NoByte b s) : NoByte b (handleInsertMode s ch) := by
  obtain ⟨hc, hb⟩ := h
  have hline := not_mem_getD_of_forall hc s.cursor_y
  unfold handleInsertMode
  split_ifs <;> (try dsimp only) <;> refine ⟨?_, hb⟩ <;>
    first
      | exact hc
      | (intro l hl
         rcases List.mem_or_eq_of_mem_set hl with hm | rfl
         · exact hc l hm
         · intro hmem
           rcases List.mem_append.mp hmem with hm | hm
           · exact hline (List.mem_of_mem_take hm)
           · rcases List.mem_cons.mp hm with rfl | hm
             · exact hch rfl
             · exact hline (List.mem_of_mem_drop hm))
      | (intro l hl
         rcases List.mem_or_eq_of_mem_set hl with hm | rfl
         · exact hc l hm
         · intro hmem
           rcases List.mem_append.mp hmem with hm | hm
           · exact hline (List.mem_of_mem_take hm)
           · exact hline (List.mem_of_mem_drop hm))
      | (intro l hl
         rcases List.mem_or_eq_of_mem_set hl with hm | rfl
         · rcases mem_of_mem_insertAt hm with rfl | hm
           · exact fun hmem => hline (List.mem_of_mem_drop hmem)
           · exact hc l hm
         · exact fun hmem => hline (List.mem_of_mem_take hmem))

theorem noByte_step {b : Nat} {s : EditorState} (ch : Nat) (hch : ch ≠ b)
    (h : NoByte b s) : NoByte b (step s ch) := by
  unfold step
  cases s.mode
  · exact noByte_handleNormalMode ch h
  · exact noByte_handleInsertMode ch hch h

theorem noByte_runInputs :
    ∀ (inputs : List Nat) (s : EditorState), NoByte 113 s →
      NoByte 113 (runInputs s inputs)
  | [], _, h => h
  | ch :: rest, s, h => by
      unfold runInputs
      split_ifs with hq
      · exact h
      · exact noByte_runInputs rest (step s ch) (noByte_step ch hq h)

/-- C4: the input loop tests for the letter q (code 113) before dispatching
on the mode, so a q input terminates the loop at once whatever the mode and
the remaining inputs; consequently, starting from a state whose buffer and
clipboard are free of the byte 113, no input sequence can ever put a
literal q into the buffer as text. -/
theorem quit_intercepted_never_inserted (s : EditorState) (inputs : List Nat)
    (hc : ∀ l ∈ s.content, 113 ∉ l) (hb : 113 ∉ s.copy_buffer) :
    (∀ rest : List Nat, runInputs s (113 :: rest) = s) ∧
    ∀ l ∈ (runInputs s inputs).content, 113 ∉ l :=
  ⟨fun _ => rfl, (noByte_runInputs inputs s ⟨hc, hb⟩).1⟩

/-- Witness for `quit_intercepted_never_inserted`: typing i, h inside Insert
mode, then q, leaves a q-free buffer, and a leading q stops the loop with
the state intact even though the mode is Insert. -/
theorem quit_intercepted_never_inserted_witness :
    113 ∉ (runInputs ⟨[[104]], [], 0, 0, 0, 0, Mode.NORMAL⟩
            [105, 104, 113]).content.getD 0 [] ∧
    runInputs ⟨[[104]], [], 0, 0, 0, 0, Mode.INSERT⟩ (113 :: [104])
      = ⟨[[104]], [], 0, 0, 0, 0, Mode.INSERT⟩ :=
  ⟨(quit_intercepted_never_inserted ⟨[[104]], [], 0, 0, 0, 0, Mode.NORMAL⟩
      [105, 104, 113] (by decide) (by decide)).2 _ (by decide),
   (quit_intercepted_never_inserted ⟨[[104]], [], 0, 0, 0, 0, Mode.INSERT⟩
      [] (by decide) (by decide)).1 [104]⟩

/-! ### C5: copy then paste duplicates the current line below the cursor -/

theorem getD_set_self {α : Type} {l : List α} {n : Nat} (a d : α)
    (h : n < l.length) : (l.set n a).getD n d = a := by
  rw [List.getD_eq_getElem?_getD, List.getElem?_set_self h, Option.getD_some]

theorem getD_set_ne {α : Type} {l : List α} {n i : Nat} (a d : α)
    (h : n ≠ i) : (l.set n a).getD i d = l.getD i d := by
  rw [List.getD_eq_getElem?_getD, List.getElem?_set_ne h,
    ← List.getD_eq_getElem?_getD]

/-- C5: pressing y then p on any buffer with a valid cursor row inserts a
copy of `Line[cursor_y]` immediately after that row, leaves the rows up to
the cursor in place, shifts every later row index down by one, moves the
cursor down one row, and leaves the clipboard holding exactly the copied
line after the paste. -/
theorem copy_paste_duplicates_line (s : EditorState)
    (h : 1 ≤ s.content.length) (hy : s.cursor_y < s.content.length) :
    (handleNormalMode (handleNormalMode s 121) 112).content
        = s.content.take (s.cursor_y + 1)
            ++ s.content.getD s.cursor_y [] :: s.content.drop (s.cursor_y + 1) ∧
    (handleNormalMode (handleNormalMode s 121) 112).content.getD
        (s.cursor_y + 1) [] = s.content.getD s.cursor_y [] ∧
    (∀ i, i ≤ s.cursor_y →
      (handleNormalMode (handleNormalMode s 121) 112).content.getD i []
        = s.content.getD i []) ∧
    (∀ i, s.cursor_y < i →
      (handleNormalMode (handleNormalMode s 121) 112).content.getD (i + 1) []
        = s.content.getD i []) ∧
    (handleNormalMode (handleNormalMode s 121) 112).content.length
        = s.content.length + 1 ∧
    (handleNormalMode (handleNormalMode s 121) 112).cursor_y
        = s.cursor_y + 1 ∧
    (handleNormalMode s 121).copy_buffer = s.content.getD s.cursor_y [] ∧
    (handleNormalMode (handleNormalMode s 121) 112).copy_buffer
        = (handleNormalMode s 121).copy_buffer := by
  have e1 : handleNormalMode s 121
      = { s with copy_buffer := s.content.getD s.cursor_y [] } := by
    simp [handleNormalMode, KEY_UP, KEY_DOWN, KEY_LEFT, KEY_RIGHT]
  have e2 : ∀ t : EditorState, handleNormalMode t 112
      = { t with content := insertAt (t.cursor_y + 1) t.copy_buffer t.content,
                 cursor_y := t.cursor_y + 1 } := fun t => by
    simp [handleNormalMode, KEY_UP, KEY_DOWN, KEY_LEFT, KEY_RIGHT]
  rw [e1, e2]
  dsimp only
  refine ⟨insertAt_eq_take_append _ _ _ (by omega),
    getD_insertAt_self _ _ (by omega),
    fun i hi => getD_insertAt_of_lt _ _ (by omega),
    fun i hi => getD_insertAt_of_ge _ _ (by omega) (by omega),
    length_insertAt _ (by omega), rfl, rfl, rfl⟩

/-- Witness for `copy_paste_duplicates_line`: scenario E of the spec,
restricted to the immediate y-then-p composition at row 0. -/
theorem copy_paste_duplicates_line_witness :
    (handleNormalMode (handleNormalMode
        ⟨[[104, 105], [106]], [], 2, 0, 0, 0, Mode.NORMAL⟩ 121) 112).content
      = [[104, 105], [104, 105], [106]] ∧
    (handleNormalMode (handleNormalMode
        ⟨[[104, 105], [106]], [], 2, 0, 0, 0, Mode.NORMAL⟩ 121) 112).cursor_y
      = 1 := by
  have h := copy_paste_duplicates_line
    ⟨[[104, 105], [106]], [], 2, 0, 0, 0, Mode.NORMAL⟩ (by decide) (by decide)
  exact ⟨h.1, h.2.2.2.2.2.1⟩

/-! ### C6: splitting a line preserves its content -/

/-- C6: the Enter key in Insert mode truncates `Line[cursor_y]` to the bytes
before the cursor column and inserts the remainder as a new line directly
below; concatenating the two halves gives back the original line, the
buffer grows by one line, and the cursor moves to the start of the new
line. -/
theorem splitLine_rejoins_to_original (s : EditorState)
    (hy : s.cursor_y < s.content.length)
    (hx : s.cursor_x ≤ (s.content.getD s.cursor_y []).length) :
    (handleInsertMode s 10).content.getD s.cursor_y []
        = (s.content.getD s.cursor_y []).take s.cursor_x ∧
    (handleInsertMode s 10).content.getD (s.cursor_y + 1) []
        = (s.content.getD s.cursor_y []).drop s.cursor_x ∧
    (handleInsertMode s 10).content.getD s.cursor_y []
        ++ (handleInsertMode s 10).content.getD (s.cursor_y + 1) []
        = s.content.getD s.cursor_y [] ∧
    (handleInsertMode s 10).content.length = s.content.length + 1 ∧
    (handleInsertMode s 10).cursor_y = s.cursor_y + 1 ∧
    (handleInsertMode s 10).cursor_x = 0 := by
  have e : handleInsertMode s 10
      = { s with
            content := (insertAt (s.cursor_y + 1) ((s.content.getD s.cursor_y []).drop s.cursor_x) s.content).set s.cursor_y ((s.content.getD s.cursor_y []).take s.cursor_x),
            cursor_y := s.cursor_y + 1,
            cursor_x := 0 } := by
    simp [handleInsertMode, KEY_BACKSPACE]
  have hlen : (insertAt (s.cursor_y + 1)
      ((s.content.getD s.cursor_y []).drop s.cursor_x) s.content).length
      = s.content.length + 1 := length_insertAt _ (by omega)
  rw [e]
  dsimp only
  have c1 : ((insertAt (s.cursor_y + 1) ((s.content.getD s.cursor_y []).drop s.cursor_x) s.content).set s.cursor_y ((s.content.getD s.cursor_y []).take s.cursor_x)).getD s.cursor_y []
      = (s.content.getD s.cursor_y []).take s.cursor_x := by
    apply getD_set_self
    rw [hlen]
    omega
  have c2 : ((insertAt (s.cursor_y + 1)
      ((s.content.getD s.cursor_y []).drop s.cursor_x) s.content).set
      s.cursor_y ((s.content.getD s.cursor_y []).take s.cursor_x)).getD
      (s.cursor_y + 1) [] = (s.content.getD s.cursor_y []).drop s.cursor_x := by
    rw [getD_set_ne _ _ (by omega)]
    exact getD_insertAt_self _ _ (by omega)
  refine ⟨c1, c2, ?_, by rw [List.length_set, hlen], rfl, rfl⟩
  rw [c1, c2, List.take_append_drop]

/-- Witness for `splitLine_rejoins_to_original`: splitting `[104, 105, 106]`
at column 1. -/
theorem splitLine_rejoins_to_original_witness :
    (handleInsertMode ⟨[[104, 105, 106]], [], 1, 0, 0, 0, Mode.INSERT⟩
        10).content.getD 0 []
      ++ (handleInsertMode ⟨[[104, 105, 106]], [], 1, 0, 0, 0, Mode.INSERT⟩
        10).content.getD 1 []
      = [104, 105, 106] :=
  (splitLine_rejoins_to_original
    ⟨[[104, 105, 106]], [], 1, 0, 0, 0, Mode.INSERT⟩
    (by decide) (by decide)).2.2.1

/-! ### C7: inserting a character and backspacing restores the line -/

/-- C7: in Insert mode, typing a printable ASCII byte at a valid column and
then pressing backspace returns the editor to exactly the state it started
from; and with the cursor at column 0 backspace (either of its two key
codes) is a complete no-op. -/
theorem insertChar_backspace_restores (s : EditorState) (ch : Nat)
    (hy : s.cursor_y < s.content.length)
    (hx : s.cursor_x ≤ (s.content.getD s.cursor_y []).length)
    (h32 : 32 ≤ ch) (h126 : ch ≤ 126) :
    handleInsertMode (handleInsertMode s ch) KEY_BACKSPACE = s ∧
    (s.cursor_x = 0 →
      handleInsertMode s KEY_BACKSPACE = s ∧ handleInsertMode s 127 = s) := by
  have e27 : ch ≠ 27 := by omega
  have e263 : ch ≠ KEY_BACKSPACE := by
    show ch ≠ 263
    omega
  have e127 : ch ≠ 127 := by omega
  have e10 : ch ≠ 10 := by omega
  have et : handleInsertMode s ch
      = { s with
            content := s.content.set s.cursor_y ((s.content.getD s.cursor_y []).take s.cursor_x ++ ch :: (s.content.getD s.cursor_y []).drop s.cursor_x),
            cursor_x := s.cursor_x + 1 } := by
    simp [handleInsertMode, e27, e263, e127, e10, h32, h126]
  have ebs : ∀ t : EditorState, 0 < t.cursor_x →
      handleInsertMode t KEY_BACKSPACE
        = { t with
              content := t.content.set t.cursor_y ((t.content.getD t.cursor_y []).take (t.cursor_x - 1) ++ (t.content.getD t.cursor_y []).drop t.cursor_x),
              cursor_x := t.cursor_x - 1 } := fun t ht => by
    simp [handleInsertMode, KEY_BACKSPACE, ht]
  constructor
  · rw [et, ebs _ (by dsimp only; omega)]
    dsimp only
    rw [getD_set_self _ _ hy, List.set_set, Nat.add_sub_cancel,
      take_append_drop_insert_restore ch s.cursor_x _ hx, set_getD_self hy]
  · intro h0
    constructor <;> simp [handleInsertMode, KEY_BACKSPACE, h0]

/-- Witness for `insertChar_backspace_restores`: typing x (code 120) into
`[104, 105]` at column 1 and backspacing. -/
theorem insertChar_backspace_restores_witness :
    handleInsertMode (handleInsertMode
        ⟨[[104, 105]], [], 1, 0, 0, 0, Mode.INSERT⟩ 120) KEY_BACKSPACE
      = ⟨[[104, 105]], [], 1, 0, 0, 0, Mode.INSERT⟩ :=
  (insertChar_backspace_restores ⟨[[104, 105]], [], 1, 0, 0, 0, Mode.INSERT⟩
    120 (by decide) (by decide) (by decide) (by decide)).1

/-! ### C8: save followed by load reproduces the buffer -/

theorem readLinesAux_append {l : Line} (rest : List Nat) :
    ∀ (acc : Line), 10 ∉ l →
      readLinesAux (l ++ 10 :: rest) acc = (acc ++ l) :: readLinesAux rest [] := by
  induction l with
  | nil => intro acc _; simp [readLinesAux]
  | cons c l ih =>
      intro acc h
      have hc : c ≠ 10 := fun hcc => h (by simp [hcc])
      have h10 : 10 ∉ l := fun hm => h (List.mem_cons_of_mem c hm)
      show readLinesAux (c :: (l ++ 10 :: rest)) acc
        = (acc ++ c :: l) :: readLinesAux rest []
      rw [show readLinesAux (c :: (l ++ 10 :: rest)) acc
            = if c = 10 then acc :: readLinesAux (l ++ 10 :: rest) []
              else readLinesAux (l ++ 10 :: rest) (acc ++ [c]) from rfl,
        if_neg hc, ih (acc ++ [c]) h10]
      simp

theorem readLines_saveBytes :
    ∀ (content : List Line), (∀ l ∈ content, 10 ∉ l) →
      readLines (saveBytes content) = content
  | [], _ => rfl
  | l :: rest, h => by
      have h1 : 10 ∉ l := h l (List.mem_cons_self l rest)
      have h2 : ∀ m ∈ rest, 10 ∉ m := fun m hm => h m (List.mem_cons_of_mem l hm)
      show readLinesAux (l ++ 10 :: saveBytes rest) [] = l :: rest
      rw [readLinesAux_append (saveBytes rest) [] h1]
      simpa using readLines_saveBytes rest h2

/-- C8: `saveBytes` appends a newline to every line, the last included, and
loading the saved bytes back parses them into exactly the original line
sequence, provided the buffer is nonempty and no line embeds a newline
byte. -/
theorem save_then_load_roundtrip (content : List Line)
    (h1 : 1 ≤ content.length) (h2 : ∀ l ∈ content, 10 ∉ l) :
    saveBytes content = (content.map (fun l => l ++ [10])).flatten ∧
    loadFile (some (saveBytes content)) = content := by
  constructor
  · induction content with
    | nil => rfl
    | cons l rest ih =>
        by_cases hr : 1 ≤ rest.length
        · simp only [saveBytes, List.map_cons, List.flatten_cons,
            ih hr (fun m hm => h2 m (List.mem_cons_of_mem l hm))]
          simp
        · have : rest = [] := by
            cases rest
            · rfl
            · simp at hr
          subst this
          simp [saveBytes]
  · obtain ⟨a, t, rfl⟩ : ∃ a t, content = a :: t := by
      cases content with
      | nil => simp at h1
      | cons a t => exact ⟨a, t, rfl⟩
    have e := readLines_saveBytes (a :: t) h2
    simp only [loadFile]
    rw [e]
    simp

/-- Witness for `save_then_load_roundtrip` on the buffer
`[[104, 105], [], [97]]`. -/
theorem save_then_load_roundtrip_witness :
    loadFile (some (saveBytes [[104, 105], [], [97]]))
      = [[104, 105], [], [97]] :=
  (save_then_load_roundtrip [[104, 105], [], [97]] (by decide) (by decide)).2

end Fingerfly
